import Mathlib

/-!
Verification of the multi-dialect database access layer of
`mcp-drupal-database-server` (`src/db_manager.py`).

The development shallowly embeds the pure logic of `DBManager`:
Python scalar values, the UTF-8 based row sanitizer, the query executor's
result handling (per-driver row normalization, error swallowing), the
connection precondition checks, table listing, schema introspection, and
the `prepare_query` brace-escaping templater.  Interaction with the native
database drivers is modelled by an explicit `Engine` parameter: a function
from the executed SQL text and its parameters to the cursor's outcome
(either a raised driver error or a description/row set).
-/

/-- Model of the Python scalar values that can appear in a fetched row or
in a configuration dictionary. `none` models Python's `None`. -/
inductive PyVal where
  | none
  | str (s : String)
  | int (n : Int)
  | bytes (b : List Nat)
  | bool (b : Bool)
deriving DecidableEq

/-- Python truthiness for the modelled scalar values, as used by
`all([...])` in `DBManager._connect` and by `if results:` checks:
`None`, empty strings, zero, empty byte strings and `False` are falsy. -/
def PyVal.truthy : PyVal → Bool
  | .none => false
  | .str s => !(s = "")
  | .int n => !(n = 0)
  | .bytes b => !(b = [])
  | .bool b => b

/-- Rendering of a scalar inside an f-string (`str(value)` in Python),
used by `_connect` for the unsupported-driver diagnostic. -/
def PyVal.pyStr : PyVal → String
  | .none => "None"
  | .str s => s
  | .int n => toString n
  | .bytes _ => "bytes"
  | .bool b => if b then "True" else "False"

/-- Is a byte a UTF-8 continuation byte (`10xxxxxx`)? -/
def isContByte (b : Nat) : Bool := 128 ≤ b && b < 192

/-- Strict UTF-8 decoding of a byte sequence to a list of code points,
following `bytes.decode('utf-8')`: rejects stray continuation bytes,
overlong encodings, surrogate code points and values above `0x10FFFF`.
Returns `none` exactly when Python raises `UnicodeDecodeError`. -/
def utf8Decode : List Nat → Option (List Nat)
  | [] => some []
  | b :: rest =>
    if b < 128 then (utf8Decode rest).map (fun t => b :: t)
    else if b < 194 then none
    else if b < 224 then
      match rest with
      | b1 :: r =>
        if isContByte b1 then
          (utf8Decode r).map (fun t => ((b - 192) * 64 + (b1 - 128)) :: t)
        else none
      | [] => none
    else if b < 240 then
      match rest with
      | b1 :: b2 :: r =>
        if isContByte b1 && isContByte b2 then
          let cp := (b - 224) * 4096 + (b1 - 128) * 64 + (b2 - 128)
          if cp < 2048 || (55296 ≤ cp && cp < 57344) then none
          else (utf8Decode r).map (fun t => cp :: t)
        else none
      | _ => none
    else if b < 245 then
      match rest with
      | b1 :: b2 :: b3 :: r =>
        if isContByte b1 && isContByte b2 && isContByte b3 then
          let cp := (b - 240) * 262144 + (b1 - 128) * 4096 + (b2 - 128) * 64 + (b3 - 128)
          if cp < 65536 || 1114111 < cp then none
          else (utf8Decode r).map (fun t => cp :: t)
        else none
      | _ => none
    else none

/-- The fixed sentinel string substituted for undecodable binary data by
`_sanitize_dict_values_for_json`. -/
def binarySentinel : String := "[binary data (not displayable)]"

/-- Sanitization of one value: a `bytes` value is decoded as UTF-8, and on
decode failure replaced with the sentinel string; all other values pass
through unchanged (`db_manager.py` lines 618-625). -/
def sanitizeVal (v : PyVal) : PyVal :=
  match v with
  | .bytes b =>
    match utf8Decode b with
    | some cps => .str (String.mk (cps.map Char.ofNat))
    | Option.none => .str binarySentinel
  | v => v

/-- A fetched dictionary row: an insertion-ordered association list from
column name to value (Python `dict`s preserve insertion order). -/
abbrev DictRow := List (String × PyVal)

/-- `DBManager._sanitize_dict_values_for_json`: iterates over the items of
a row dictionary and sanitizes each value in place. -/
def sanitize_dict_values_for_json (row : DictRow) : DictRow :=
  row.map (fun kv => (kv.1, sanitizeVal kv.2))

example : sanitize_dict_values_for_json [("data", .bytes [255])] =
    [("data", .str binarySentinel)] := by decide

example : sanitize_dict_values_for_json [("data", .bytes [104, 105]), ("n", .int 3)] =
    [("data", .str "hi"), ("n", .int 3)] := by decide

/-- A raw row as produced by a native cursor fetch: either a positional
tuple (psycopg2 and cx_Oracle return tuples) or a column-keyed dictionary
(MySQL's dictionary cursor). pyodbc `Row` objects, which the executor
reads via `getattr(row, col)`, are modelled as dictionaries as well. -/
inductive RawRow where
  | tup (vs : List PyVal)
  | dict (r : DictRow)
deriving DecidableEq

/-- Python truthiness of a fetched row (`if row:`): empty tuples and
empty dictionaries are falsy. -/
def RawRow.truthy : RawRow → Bool
  | .tup vs => !(vs = [])
  | .dict r => !(r = [])

/-- Is the row a positional tuple (`isinstance(row, tuple)`)? -/
def RawRow.isTup : RawRow → Bool
  | .tup _ => true
  | .dict _ => false

/-- Outcome of a successful `cursor.execute`: the cursor's column
description (`None` for statements that produce no result set, the
column names otherwise) and the rows a fetch would return. -/
structure ExecResult where
  description : Option (List String)
  rows : List RawRow
deriving DecidableEq

/-- Query parameters as passed to the native cursor: a positional tuple
or a named dictionary (cx_Oracle). `params or ()` turns `None` into the
empty tuple before execution. -/
inductive QParams where
  | pos (vs : List PyVal)
  | named (kvs : List (String × PyVal))
deriving DecidableEq

/-- The native driver boundary: maps the executed SQL text and its
parameters to either a raised driver error (its message) or a cursor
result. -/
abbrev Engine := String → QParams → Except String ExecResult

/-- Dictionary lookup, `row[key]` or `getattr(row, key)`. -/
def lookupRow (r : DictRow) (k : String) : Option PyVal :=
  (r.find? (fun kv => kv.1 == k)).map (fun kv => kv.2)

/-- Row-to-dict conversion for the psycopg2 and cx_Oracle paths:
`zip` of the described column names against the row. Iterating a Python
dict yields its keys, so a dict row (never produced by those drivers in
practice) zips the column names against its key strings. -/
def zipRowToDict (cols : List String) : RawRow → DictRow
  | .tup vs => cols.zip vs
  | .dict d => cols.zip (d.map (fun kv => PyVal.str kv.1))

/-- Effectful map over `Option`: `some` of the pointwise images when
every element succeeds, `none` as soon as one fails (a raised exception
inside a Python comprehension). -/
def optMapM {α β : Type} (f : α → Option β) : List α → Option (List β)
  | [] => some []
  | a :: t =>
    match f a with
    | some b => (optMapM f t).map (fun bs => b :: bs)
    | Option.none => Option.none

/-- The pyodbc row conversion `{col: getattr(row, col) for col in cols}`:
`none` models the `AttributeError` raised when a described column is
missing from the row or the row carries no attributes. -/
def mssqlRowToDict (cols : List String) : RawRow → Option DictRow
  | .dict d => optMapM (fun c => (lookupRow d c).map (fun v => (c, v))) cols
  | .tup _ => Option.none

/-- Views a raw row as a dictionary (`isinstance(row, dict)`). -/
def RawRow.asDict : RawRow → Option DictRow
  | .dict d => some d
  | .tup _ => Option.none

/-- The database configuration dictionary handed to `DBManager`:
driver, database, username, password, host, port and table prefix.
The prefix is read as `db_config.get('prefix', '')`, so it is modelled
as a plain string; the other six fields are arbitrary Python values
checked for truthiness at connect time. (`tablePrefix` stands for the
source's `prefix` key, which is a reserved word in Lean.) -/
structure DbConfig where
  driver : PyVal
  database : PyVal
  username : PyVal
  password : PyVal
  host : PyVal
  port : PyVal
  tablePrefix : String
deriving DecidableEq

/-- Comparison `db_config.get('driver') == s` used by the dispatches. -/
def DbConfig.driverIs (cfg : DbConfig) (s : String) : Bool :=
  cfg.driver == .str s

/-- The value returned by `execute_query` when it is not `None`: a single
sanitized row (`fetch_one=True`), a raw unconverted row (the `return row`
fallback at line 190), a list of sanitized rows, or the raw fetched list
(the `return rows` fallback at line 218 for unhandled row formats). -/
inductive QueryResult where
  | one (r : DictRow)
  | raw (r : RawRow)
  | list (rs : List DictRow)
  | rawList (rs : List RawRow)
deriving DecidableEq

/-- `DBManager.execute_query` (db_manager.py lines 161-243), modelled for
a live connection (the reconnect preamble of lines 149-159 only fires
when no connection exists). The native `cursor.execute` plus fetch is the
`engine`; any error it raises is caught, logged and turned into `None`
(lines 226-243). A statement with a falsy column description commits and
returns `None` (lines 223-225). Conversions that raise inside the `try`
block (`getattr` on a missing column, sanitizing a non-dict row) are
caught by the same handlers and also yield `None`. -/
def execute_query (cfg : DbConfig) (engine : Engine) (query : String)
    (params : QParams) (fetchOne : Bool) : Option QueryResult :=
  match engine query params with
  | .error _ => Option.none
  | .ok res =>
    match res.description with
    | Option.none => Option.none
    | some cols =>
      if cols = [] then Option.none
      else if fetchOne then
        match res.rows.head? with
        | Option.none => Option.none
        | some row =>
          if !row.truthy then Option.none
          else if cfg.driverIs "pgsql" && row.isTup then
            some (.one (sanitize_dict_values_for_json (zipRowToDict cols row)))
          else if cfg.driverIs "mssql" then
            match mssqlRowToDict cols row with
            | some d => some (.one (sanitize_dict_values_for_json d))
            | Option.none => Option.none
          else if cfg.driverIs "oracle" && row.isTup then
            some (.one (sanitize_dict_values_for_json (zipRowToDict cols row)))
          else if cfg.driverIs "mysql" then
            match row.asDict with
            | some d => some (.one (sanitize_dict_values_for_json d))
            | Option.none => Option.none
          else some (.raw row)
      else
        match res.rows with
        | [] => some (.list [])
        | r0 :: _ =>
          if cfg.driverIs "pgsql" && r0.isTup then
            some (.list (res.rows.map (fun r => sanitize_dict_values_for_json (zipRowToDict cols r))))
          else if cfg.driverIs "mssql" then
            match optMapM (mssqlRowToDict cols) res.rows with
            | some ds => some (.list (ds.map sanitize_dict_values_for_json))
            | Option.none => Option.none
          else if cfg.driverIs "oracle" && r0.isTup then
            some (.list (res.rows.map (fun r => sanitize_dict_values_for_json (zipRowToDict cols r))))
          else if cfg.driverIs "mysql" then
            match optMapM RawRow.asDict res.rows with
            | some ds => some (.list (ds.map sanitize_dict_values_for_json))
            | Option.none => Option.none
          else
            match optMapM RawRow.asDict res.rows with
            | some ds => some (.list (ds.map sanitize_dict_values_for_json))
            | Option.none => some (.rawList res.rows)

/-- Connection-time errors: the `ConnectionError` raised for an
incomplete configuration and for wrapped native failures, versus the
re-raised `ValueError` for an unsupported driver. -/
inductive PyErr where
  | connectionError (msg : String)
  | valueError (msg : String)
deriving DecidableEq

/-- Discriminates the Python exception type carried by a `PyErr`. -/
def PyErr.isConnectionError : PyErr → Bool
  | .connectionError _ => true
  | .valueError _ => false

/-- `DBManager._connect` (db_manager.py lines 25-119). The native
per-driver connect call (including the `int(port)` conversions it
performs) is abstracted as `native`, which either succeeds or raises with
an error text; each recognized driver wraps a native failure in a
`ConnectionError` with its own banner (lines 93-112). The unsupported
driver `ValueError` is re-raised unchanged (lines 86-89 and 113-114).
The second component of the result records whether a native connect call
was attempted. -/
def connect (cfg : DbConfig) (native : String → Except String Unit) :
    Except PyErr Unit × Bool :=
  if !(cfg.driver.truthy && cfg.database.truthy && cfg.username.truthy &&
       cfg.password.truthy && cfg.host.truthy && cfg.port.truthy) then
    (.error (.connectionError "Database configuration is incomplete. Cannot connect."), false)
  else if cfg.driver = .str "mysql" then
    match native "mysql" with
    | .ok _ => (.ok (), true)
    | .error e => (.error (.connectionError ("MySQL Error: " ++ e)), true)
  else if cfg.driver = .str "pgsql" then
    match native "pgsql" with
    | .ok _ => (.ok (), true)
    | .error e => (.error (.connectionError ("PostgreSQL Error: " ++ e)), true)
  else if cfg.driver = .str "mssql" then
    match native "mssql" with
    | .ok _ => (.ok (), true)
    | .error e => (.error (.connectionError ("SQL Server (pyodbc) Error: " ++ e)), true)
  else if cfg.driver = .str "oracle" then
    match native "oracle" with
    | .ok _ => (.ok (), true)
    | .error e => (.error (.connectionError ("Oracle (cx_Oracle) Error: " ++ e)), true)
  else
    (.error (.valueError ("Unsupported database driver: " ++ cfg.driver.pyStr)), false)

/-- Python truthiness of an `execute_query` result (`if results:`):
`None` and empty lists are falsy, nonempty lists truthy. -/
def qrTruthy : Option QueryResult → Bool
  | Option.none => false
  | some (.list rs) => !(rs = [])
  | some (.rawList rs) => !(rs = [])
  | some (.one r) => !(r = [])
  | some (.raw r) => r.truthy

/-- The rows iterated by `for row in results`. `execute_query` with
`fetch_one=False` only ever returns row lists (see
`execute_query_fetchall_shape` below); iterating the single-row shapes
would yield key strings or scalars whose subscripting raises, hence the
error. -/
def QueryResult.iterRows : QueryResult → Except Unit (List RawRow)
  | .list rs => .ok (rs.map RawRow.dict)
  | .rawList rs => .ok rs
  | .one _ => .error ()
  | .raw _ => .error ()

/-- Python dict assignment `d[k] = v`: updates the value in place if the
key is present (keeping its position) and appends otherwise. -/
def dictSet (d : List (PyVal × PyVal)) (k v : PyVal) : List (PyVal × PyVal) :=
  if d.any (fun kv => kv.1 == k) then
    d.map (fun kv => if kv.1 == k then (k, v) else kv)
  else d ++ [(k, v)]

/-- The schema-building loop `for row in results: schema[row[kField]] =
row[kType]`. A row that is not a dictionary or lacks one of the two keys
raises (`KeyError`/`TypeError`), modelled as `.error`. -/
def schemaFromRows (kField kType : String) :
    List RawRow → List (PyVal × PyVal) → Except Unit (List (PyVal × PyVal))
  | [], acc => .ok acc
  | .dict d :: rest, acc =>
    match lookupRow d kField, lookupRow d kType with
    | some kv, some tv => schemaFromRows kField kType rest (dictSet acc kv tv)
    | _, _ => .error ()
  | .tup _ :: _, _ => .error ()

/-- Shared result handling of the four `get_table_schema` branches:
`if results:` builds the schema dictionary from the rows and returns it,
otherwise the function returns `None`. -/
def schemaResult (kField kType : String) :
    Option QueryResult → Except Unit (Option (List (PyVal × PyVal)))
  | Option.none => .ok Option.none
  | some qr =>
    if !qrTruthy (some qr) then .ok Option.none
    else
      match qr.iterRows with
      | .ok rs => (schemaFromRows kField kType rs []).map some
      | .error e => .error e

/-- A character of the class `[a-zA-Z0-9_]`. -/
def isWordChar (c : Char) : Bool :=
  ('a' ≤ c && c ≤ 'z') || ('A' ≤ c && c ≤ 'Z') || ('0' ≤ c && c ≤ '9') || c = '_'

/-- Python `re.match(r'^[a-zA-Z0-9_]+$', s)` as a Boolean. In Python's
`re`, `$` matches at the end of the string or just before one newline at
the very end, so the pattern accepts `ident+` and also `ident+` followed
by a single trailing newline. -/
def pyMatchIdentFull (l : List Char) : Bool :=
  let core := if l.getLast? = some '\n' then l.dropLast else l
  !(core = []) && core.all isWordChar

example : pyMatchIdentFull "dr_node_1".data = true := by decide
example : pyMatchIdentFull "users; DROP TABLE x".data = false := by decide
example : pyMatchIdentFull "users\n".data = true := by decide
example : pyMatchIdentFull "users\n\n".data = false := by decide
example : pyMatchIdentFull "".data = false := by decide

/-- Name extraction of the MySQL `get_tables` branch:
`list(row.values())[0]` for every element that is a nonempty dict. -/
def mysqlTableNames : List RawRow → List PyVal
  | [] => []
  | .dict ((_, v) :: _) :: rest => v :: mysqlTableNames rest
  | _ :: rest => mysqlTableNames rest

/-- Name extraction keyed on a fixed column, used by the pgsql
(`tablename`) and mssql (`TABLE_NAME`) branches of `get_tables`:
`row[key]` for every dict element containing `key`. -/
def keyedTableNames (key : String) : List RawRow → List PyVal
  | [] => []
  | .dict d :: rest =>
    match lookupRow d key with
    | some v => v :: keyedTableNames key rest
    | Option.none => keyedTableNames key rest
  | .tup _ :: rest => keyedTableNames key rest

/-- Name extraction of the Oracle `get_tables` branch:
`row['table_name'].lower()` for every dict element containing the
lower-case key `'table_name'`; the `.lower()` call raises for a
non-string value (`.error`). -/
def oracleTableNames : List RawRow → Except Unit (List PyVal)
  | [] => .ok []
  | .dict d :: rest =>
    match lookupRow d "table_name" with
    | some (.str s) => (oracleTableNames rest).map (fun l => PyVal.str s.toLower :: l)
    | some _ => .error ()
    | Option.none => oracleTableNames rest
  | .tup _ :: rest => oracleTableNames rest

/-- `DBManager.get_tables` (db_manager.py lines 245-283). Issues the
driver-specific list-tables statement through `execute_query` and
extracts the table-name column per dialect; `.ok none` is the
`return None` path (unsupported driver, or failed query). -/
def get_tables (cfg : DbConfig) (engine : Engine) :
    Except Unit (Option (List PyVal)) :=
  if cfg.driverIs "mysql" then
    match execute_query cfg engine "SHOW TABLES" (.pos []) false with
    | Option.none => .ok Option.none
    | some qr => (qr.iterRows).map (fun rs => some (mysqlTableNames rs))
  else if cfg.driverIs "pgsql" then
    match execute_query cfg engine
        "SELECT tablename FROM pg_catalog.pg_tables WHERE schemaname = 'public';"
        (.pos []) false with
    | Option.none => .ok Option.none
    | some qr => (qr.iterRows).map (fun rs => some (keyedTableNames "tablename" rs))
  else if cfg.driverIs "mssql" then
    match execute_query cfg engine
        "SELECT TABLE_NAME FROM INFORMATION_SCHEMA.TABLES WHERE TABLE_TYPE = 'BASE TABLE' AND TABLE_CATALOG = DB_NAME();"
        (.pos []) false with
    | Option.none => .ok Option.none
    | some qr => (qr.iterRows).map (fun rs => some (keyedTableNames "TABLE_NAME" rs))
  else if cfg.driverIs "oracle" then
    match execute_query cfg engine "SELECT table_name FROM user_tables;"
        (.pos []) false with
    | Option.none => .ok Option.none
    | some qr =>
      match qr.iterRows with
      | .ok rs => (oracleTableNames rs).map some
      | .error e => .error e
  else .ok Option.none

/-- `DBManager.get_table_schema` (db_manager.py lines 285-355),
instrumented with the list of (query, params) pairs it hands to
`execute_query`. For MySQL the physical name `prefix + table_name` is
validated against `re.match(r'^[a-zA-Z0-9_]+$', ...)` before being
interpolated into a `DESCRIBE` statement; a failed match returns `None`
without executing anything. The other dialects use parameterized
information-schema queries (Oracle upper-cases the physical name). -/
def get_table_schema (cfg : DbConfig) (engine : Engine) (tableName : String) :
    Except Unit (Option (List (PyVal × PyVal))) × List (String × QParams) :=
  let full := cfg.tablePrefix ++ tableName
  if cfg.driverIs "mysql" then
    if !pyMatchIdentFull full.data then (.ok Option.none, [])
    else
      let q := "DESCRIBE `" ++ full ++ "`"
      (schemaResult "Field" "Type" (execute_query cfg engine q (.pos []) false),
       [(q, .pos [])])
  else if cfg.driverIs "pgsql" then
    let q := "\n                SELECT column_name, data_type \n                FROM information_schema.columns \n                WHERE table_name = %s AND table_schema = 'public';\n            "
    let p := QParams.pos [.str full]
    (schemaResult "column_name" "data_type" (execute_query cfg engine q p false), [(q, p)])
  else if cfg.driverIs "mssql" then
    let q := "SELECT COLUMN_NAME, DATA_TYPE FROM INFORMATION_SCHEMA.COLUMNS WHERE TABLE_NAME = ? AND TABLE_CATALOG = DB_NAME();"
    let p := QParams.pos [.str full]
    (schemaResult "COLUMN_NAME" "DATA_TYPE" (execute_query cfg engine q p false), [(q, p)])
  else if cfg.driverIs "oracle" then
    let q := "\n                SELECT COLUMN_NAME, DATA_TYPE \n                FROM USER_TAB_COLUMNS \n                WHERE TABLE_NAME = :table_name\n            "
    let p := QParams.named [("table_name", .str full.toUpper)]
    (schemaResult "COLUMN_NAME" "DATA_TYPE" (execute_query cfg engine q p false), [(q, p)])
  else (.ok Option.none, [])

/-- Consumes the pattern `p` from the front of `l`, returning the
remainder on success. -/
def dropMatching : List Char → List Char → Option (List Char)
  | [], l => some l
  | _ :: _, [] => Option.none
  | p :: ps, c :: cs => if p = c then dropMatching ps cs else Option.none

/-- Fuelled worker for `pyReplace`; each step consumes at least one
character, so any fuel dominating the text length gives the full scan. -/
def pyReplaceGo (old new : List Char) : Nat → List Char → List Char
  | _, [] => []
  | 0, l => l
  | fuel + 1, c :: rest =>
    match dropMatching old (c :: rest) with
    | some rem => new ++ pyReplaceGo old new fuel rem
    | Option.none => c :: pyReplaceGo old new fuel rest

/-- Python `str.replace(old, new)`: replaces non-overlapping occurrences
of `old` left to right. (The source only ever replaces nonempty
patterns.) -/
def pyReplace (old new : List Char) (l : List Char) : List Char :=
  if old = [] then l else pyReplaceGo old new l.length l

/-- Splits a replacement field at its closing brace: the field text and
the remainder after the brace, or `none` when no closing brace exists. -/
def splitAtClose : List Char → Option (List Char × List Char)
  | [] => Option.none
  | c :: rest =>
    if c = '\x7d' then some ([], rest)
    else (splitAtClose rest).map (fun p => (c :: p.1, p.2))

/-- Fuelled worker for `pyFormat`: an opening brace doubles as an escape
or opens a replacement field, a closing brace doubles as an escape and is
an error alone; other characters pass through. -/
def pyFormatGo (m : String → Option String) : Nat → List Char → Option (List Char)
  | _, [] => some []
  | 0, _ => Option.none
  | fuel + 1, c :: rest =>
    if c = '\x7b' then
      match rest with
      | c2 :: rest2 =>
        if c2 = '\x7b' then (pyFormatGo m fuel rest2).map (fun t => '\x7b' :: t)
        else
          match splitAtClose rest with
          | some (nm, rem) =>
            match m (String.mk nm) with
            | some v => (pyFormatGo m fuel rem).map (fun t => v.data ++ t)
            | Option.none => Option.none
          | Option.none => Option.none
      | [] => Option.none
    else if c = '\x7d' then
      match rest with
      | c2 :: rest2 =>
        if c2 = '\x7d' then (pyFormatGo m fuel rest2).map (fun t => '\x7d' :: t)
        else Option.none
      | [] => Option.none
    else (pyFormatGo m fuel rest).map (fun t => c :: t)

/-- Python `str.format(**mapping)` restricted to the field shapes this
code can produce: `\x7b\x7b` and `\x7d\x7d` are escaped braces, a plain
`\x7bname\x7d` is a replacement field looked up in the mapping (`none`
models the `KeyError` for an absent name), and a lone closing brace or an
unclosed field is an error. The code never emits conversions or format
specs, so fields are plain names. -/
def pyFormat (m : String → Option String) (l : List Char) : Option (List Char) :=
  pyFormatGo m l.length l

/-- A character of Python's regex class `\s`. -/
def isPySpace (c : Char) : Bool :=
  c = ' ' || c = '\t' || c = '\n' || c = '\x0b' || c = '\x0c' || c = '\r'

/-- One leftmost-match attempt of the placeholder regex at the head of
the text. The pattern (`db_manager.py` line 389) is two opening braces,
optional whitespace, a captured `[a-zA-Z0-9_]+` name, optional
whitespace, and two closing braces; on success the captured name and the
text after the match are returned. -/
def tryPlaceholder : List Char → Option (String × List Char)
  | '\x7b' :: '\x7b' :: rest =>
    let r1 := rest.dropWhile isPySpace
    let nm := r1.takeWhile isWordChar
    let r2 := (r1.dropWhile isWordChar).dropWhile isPySpace
    match nm, r2 with
    | [], _ => Option.none
    | _, '\x7d' :: '\x7d' :: r3 => some (String.mk nm, r3)
    | _, _ => Option.none
  | _ => Option.none

/-- Fuelled scan of `re.findall`: tries the pattern at every position,
continuing right after each match. -/
def findPlaceholdersGo : Nat → List Char → List String
  | _, [] => []
  | 0, _ => []
  | fuel + 1, c :: rest =>
    match tryPlaceholder (c :: rest) with
    | some (nm, r) => nm :: findPlaceholdersGo fuel r
    | Option.none => findPlaceholdersGo fuel rest

/-- `DBManager._extract_table_names` (lines 386-390):
`re.findall` of the placeholder pattern, deduplicated. The Python code
wraps the matches in `set(...)` whose iteration order is irrelevant here
because the result is only consumed as a keyword mapping; the model
deduplicates keeping first occurrences. -/
def extract_table_names (query : String) : List String :=
  (findPlaceholdersGo query.data.length query.data).dedup

/-- `DBManager.prepare_query` (db_manager.py lines 380-384): doubles
every brace, collapses each run of four identical braces back to two,
and applies `str.format` with the keyword mapping `name ↦ prefix + name`
for every extracted placeholder name. `none` models a raised formatting
error. -/
def prepare_query (cfg : DbConfig) (query : String) : Option String :=
  let names := extract_table_names query
  let m : String → Option String := fun n =>
    if n ∈ names then some (cfg.tablePrefix ++ n) else Option.none
  let step1 := pyReplace ['\x7b'] ['\x7b', '\x7b'] query.data
  let step2 := pyReplace ['\x7d'] ['\x7d', '\x7d'] step1
  let step3 := pyReplace ['\x7b', '\x7b', '\x7b', '\x7b'] ['\x7b', '\x7b'] step2
  let step4 := pyReplace ['\x7d', '\x7d', '\x7d', '\x7d'] ['\x7d', '\x7d'] step3
  (pyFormat m step4).map String.mk

/-- A sample MySQL configuration with the prefix `dr_`, matching the
dummy settings in the module's own `__main__` test block. -/
def mysqlCfg : DbConfig :=
  { driver := .str "mysql", database := .str "test_drupal_db",
    username := .str "root", password := .str "password",
    host := .str "localhost", port := .str "3306", tablePrefix := "dr_" }

example : prepare_query mysqlCfg "SELECT * FROM \x7bnode\x7d" =
    some "SELECT * FROM \x7bnode\x7d" := by decide

example : prepare_query mysqlCfg "SELECT * FROM \x7b\x7bnode\x7d\x7d" =
    some "SELECT * FROM \x7bnode\x7d" := by decide

example : prepare_query mysqlCfg "a\x7b\x7bb" = some "a\x7bb" := by decide

/-- Doubles every occurrence of the character `a`. -/
def dblChar (a : Char) : List Char → List Char
  | [] => []
  | c :: rest => if c = a then c :: c :: dblChar a rest else c :: dblChar a rest

/-- Doubles every brace character. -/
def dblBraces : List Char → List Char
  | [] => []
  | c :: rest =>
    if c = '\x7b' || c = '\x7d' then c :: c :: dblBraces rest else c :: dblBraces rest

/-- The text contains no two adjacent identical braces. -/
def noDoubledBrace : List Char → Bool
  | c1 :: c2 :: rest =>
    !((c1 = '\x7b' || c1 = '\x7d') && c1 = c2) && noDoubledBrace (c2 :: rest)
  | _ => true

theorem dropMatching_length {p l rem : List Char}
    (h : dropMatching p l = some rem) : rem.length + p.length = l.length := by
  induction p generalizing l with
  | nil =>
    simp only [dropMatching, Option.some.injEq] at h
    subst h; simp
  | cons p ps ih =>
    cases l with
    | nil => simp [dropMatching] at h
    | cons c cs =>
      simp only [dropMatching] at h
      split at h
      · have := ih h
        simp only [List.length_cons]
        omega
      · simp at h

theorem pyReplaceGo_fuel {old new : List Char} (hold : old ≠ []) :
    ∀ (m : Nat) (l : List Char) (n : Nat), l.length ≤ m → l.length ≤ n →
      pyReplaceGo old new m l = pyReplaceGo old new n l := by
  intro m
  induction m with
  | zero =>
    intro l n hm _
    cases l with
    | nil => cases n <;> rfl
    | cons c cs => simp at hm
  | succ m ih =>
    intro l n hm hn
    cases l with
    | nil => cases n <;> rfl
    | cons c cs =>
      cases n with
      | zero => simp at hn
      | succ n =>
        cases hdrop : dropMatching old (c :: cs) with
        | none =>
          simp only [pyReplaceGo, hdrop]
          simp only [List.length_cons] at hm hn
          rw [ih cs n (by omega) (by omega)]
        | some rem =>
          simp only [pyReplaceGo, hdrop]
          have hlen := dropMatching_length hdrop
          have holdlen : 0 < old.length := List.length_pos.mpr hold
          simp only [List.length_cons] at hm hn hlen
          rw [ih rem n (by omega) (by omega)]

theorem pyReplace_nil (old new : List Char) : pyReplace old new [] = [] := by
  unfold pyReplace
  split <;> rfl

theorem pyReplace_cons_pos {old : List Char} (new : List Char) {c : Char}
    {rest rem : List Char} (hold : old ≠ [])
    (h : dropMatching old (c :: rest) = some rem) :
    pyReplace old new (c :: rest) = new ++ pyReplace old new rem := by
  have hlen := dropMatching_length h
  have holdlen : 0 < old.length := List.length_pos.mpr hold
  unfold pyReplace
  rw [if_neg hold, if_neg hold]
  simp only [List.length_cons, pyReplaceGo, h]
  rw [pyReplaceGo_fuel hold rest.length rem rem.length
    (by simp only [List.length_cons] at hlen; omega) le_rfl]

theorem pyReplace_cons_neg {old : List Char} (new : List Char) {c : Char}
    {rest : List Char} (h : dropMatching old (c :: rest) = Option.none) :
    pyReplace old new (c :: rest) = c :: pyReplace old new rest := by
  have hold : old ≠ [] := by
    intro he
    subst he
    simp [dropMatching] at h
  unfold pyReplace
  rw [if_neg hold, if_neg hold]
  simp only [List.length_cons, pyReplaceGo, h]

theorem pyReplace_dblChar (a : Char) (l : List Char) :
    pyReplace [a] [a, a] l = dblChar a l := by
  induction l with
  | nil => exact pyReplace_nil _ _
  | cons c rest ih =>
    by_cases hc : a = c
    · subst hc
      have h : dropMatching [a] (a :: rest) = some rest := by
        simp [dropMatching]
      rw [pyReplace_cons_pos [a, a] (by simp) h, ih]
      simp [dblChar]
    · have hc' : ¬ c = a := fun hh => hc hh.symm
      have h : dropMatching [a] (c :: rest) = Option.none := by
        simp [dropMatching, hc]
      rw [pyReplace_cons_neg [a, a] h, ih]
      simp [dblChar, hc']

theorem dblChar_braces (l : List Char) :
    dblChar '\x7d' (dblChar '\x7b' l) = dblBraces l := by
  induction l with
  | nil => rfl
  | cons c rest ih =>
    by_cases hb : c = '\x7b'
    · subst hb
      simp [dblChar, dblBraces, ih]
    · by_cases hd : c = '\x7d'
      · subst hd
        simp [dblChar, dblBraces, ih]
      · simp [dblChar, dblBraces, hb, hd, ih]

theorem noDoubledBrace_tail {c : Char} {rest : List Char}
    (h : noDoubledBrace (c :: rest) = true) : noDoubledBrace rest = true := by
  cases rest with
  | nil => rfl
  | cons d r =>
    simp only [noDoubledBrace, Bool.and_eq_true] at h
    exact h.2

theorem dblBraces_cons (c : Char) (rest : List Char) :
    ∃ t, dblBraces (c :: rest) = c :: t := by
  by_cases hb : (c = '\x7b' || c = '\x7d') = true
  · exact ⟨c :: dblBraces rest, by simp [dblBraces, hb]⟩
  · exact ⟨dblBraces rest, by simp [dblBraces, hb]⟩

theorem dropMatching_ne_head {a d : Char} (p t : List Char)
    (h : ¬ a = d) : dropMatching (a :: p) (d :: t) = Option.none := by
  simp [dropMatching, h]

theorem pyReplace_collapse {a : Char} (hb : a = '\x7b' ∨ a = '\x7d')
    (l : List Char) (h : noDoubledBrace l = true) :
    pyReplace [a, a, a, a] [a, a] (dblBraces l) = dblBraces l := by
  induction l with
  | nil => exact pyReplace_nil _ _
  | cons c rest ih =>
    have hrest : noDoubledBrace rest = true := noDoubledBrace_tail h
    have hIH := ih hrest
    have habr : (a = '\x7b' || a = '\x7d') = true := by
      rcases hb with hb | hb <;> simp [hb]
    by_cases hca : c = a
    · subst hca
      have hexp : dblBraces (c :: rest) = c :: c :: dblBraces rest := by
        simp [dblBraces, habr]
      rw [hexp]
      cases rest with
      | nil =>
        have h1 : dropMatching [c, c, c, c] (c :: c :: dblBraces []) = Option.none := by
          simp [dropMatching, dblBraces]
        have h2 : dropMatching [c, c, c, c] (c :: dblBraces []) = Option.none := by
          simp [dropMatching, dblBraces]
        rw [pyReplace_cons_neg _ h1, pyReplace_cons_neg _ h2, hIH]
      | cons d r =>
        obtain ⟨t, ht⟩ := dblBraces_cons d r
        have hcd : ¬ c = d := by
          intro he
          subst he
          simp [noDoubledBrace, habr] at h
        rw [ht] at hIH ⊢
        have h1 : dropMatching [c, c, c, c] (c :: c :: d :: t) = Option.none := by
          simp [dropMatching, hcd]
        have h2 : dropMatching [c, c, c, c] (c :: d :: t) = Option.none := by
          simp [dropMatching, hcd]
        rw [pyReplace_cons_neg _ h1, pyReplace_cons_neg _ h2, hIH]
    · have hac : ¬ a = c := fun he => hca he.symm
      by_cases hbr2 : (c = '\x7b' || c = '\x7d') = true
      · have hexp : dblBraces (c :: rest) = c :: c :: dblBraces rest := by
          simp [dblBraces, hbr2]
        rw [hexp]
        have h1 : dropMatching [a, a, a, a] (c :: c :: dblBraces rest) = Option.none :=
          dropMatching_ne_head _ _ hac
        have h2 : dropMatching [a, a, a, a] (c :: dblBraces rest) = Option.none :=
          dropMatching_ne_head _ _ hac
        rw [pyReplace_cons_neg _ h1, pyReplace_cons_neg _ h2, hIH]
      · have hexp : dblBraces (c :: rest) = c :: dblBraces rest := by
          simp [dblBraces, hbr2]
        rw [hexp]
        have h1 : dropMatching [a, a, a, a] (c :: dblBraces rest) = Option.none :=
          dropMatching_ne_head _ _ hac
        rw [pyReplace_cons_neg _ h1, hIH]

theorem pyFormatGo_dblBraces (m : String → Option String) :
    ∀ (l : List Char) (n : Nat), (dblBraces l).length ≤ n →
      pyFormatGo m n (dblBraces l) = some l := by
  intro l
  induction l with
  | nil =>
    intro n _
    cases n <;> rfl
  | cons c rest ih =>
    intro n hn
    by_cases hbo : c = '\x7b'
    · subst hbo
      have hexp : dblBraces ('\x7b' :: rest) = '\x7b' :: '\x7b' :: dblBraces rest := by
        simp [dblBraces]
      rw [hexp] at hn ⊢
      cases n with
      | zero => simp at hn
      | succ n =>
        have hle : (dblBraces rest).length ≤ n := by
          simp only [List.length_cons] at hn
          omega
        simp [pyFormatGo, ih n hle]
    · by_cases hbc : c = '\x7d'
      · subst hbc
        have hexp : dblBraces ('\x7d' :: rest) = '\x7d' :: '\x7d' :: dblBraces rest := by
          simp [dblBraces]
        rw [hexp] at hn ⊢
        cases n with
        | zero => simp at hn
        | succ n =>
          have hle : (dblBraces rest).length ≤ n := by
            simp only [List.length_cons] at hn
            omega
          simp [pyFormatGo, ih n hle]
      · have hexp : dblBraces (c :: rest) = c :: dblBraces rest := by
          simp [dblBraces, hbo, hbc]
        rw [hexp] at hn ⊢
        cases n with
        | zero => simp at hn
        | succ n =>
          have hle : (dblBraces rest).length ≤ n := by
            simp only [List.length_cons] at hn
            omega
          simp [pyFormatGo, hbo, hbc, ih n hle]

theorem pyFormat_dblBraces (m : String → Option String) (l : List Char) :
    pyFormat m (dblBraces l) = some l :=
  pyFormatGo_dblBraces m l (dblBraces l).length le_rfl

theorem string_mk_data (s : String) : String.mk s.data = s := rfl

/-- C9 (amended): applied to text containing no two adjacent identical
braces — in particular to already-expanded query text whose braces are
isolated — `prepare_query` returns the text unchanged for every
configured prefix. It is therefore idempotent on such text and never
applies the prefix a second time, and isolated literal braces are left
untouched. (Adjacent identical braces are halved instead, see the
counterexample.) -/
theorem prepare_query_identity_on_isolated_braces (cfg : DbConfig) (s : String)
    (h : noDoubledBrace s.data = true) : prepare_query cfg s = some s := by
  simp only [prepare_query]
  rw [pyReplace_dblChar, pyReplace_dblChar, dblChar_braces,
      pyReplace_collapse (Or.inl rfl) s.data h,
      pyReplace_collapse (Or.inr rfl) s.data h,
      pyFormat_dblBraces]
  simp [string_mk_data]

theorem prepare_query_identity_on_isolated_braces_witness :
    noDoubledBrace "SELECT * FROM dr_node WHERE nid = %s".data = true ∧
    prepare_query mysqlCfg "SELECT * FROM dr_node WHERE nid = %s" =
      some "SELECT * FROM dr_node WHERE nid = %s" :=
  ⟨by decide, prepare_query_identity_on_isolated_braces mysqlCfg _ (by decide)⟩

/-- C9 counterexample: the two literal opening braces in `a\x7b\x7bb`
form no placeholder, yet `prepare_query` halves them to a single brace
instead of leaving them untouched. -/
theorem prepare_query_halves_literal_braces :
    prepare_query mysqlCfg "a\x7b\x7bb" = some "a\x7bb" ∧
    ("a\x7bb" : String) ≠ "a\x7b\x7bb" := by decide

/-- C1 (code bug, evaluated at the failing input): with the configured
prefix `dr_`, `prepare_query` returns the template `SELECT * FROM
\x7bnode\x7d` unchanged instead of substituting the placeholder with the
physical name `dr_node`: the brace doubling and collapsing turns every
brace into a `str.format` escape, so `format` never sees a replacement
field and the substitution mapping is never applied. -/
theorem prepare_query_no_substitution_at_failing_input :
    prepare_query mysqlCfg "SELECT * FROM \x7bnode\x7d" =
      some "SELECT * FROM \x7bnode\x7d" ∧
    prepare_query mysqlCfg "SELECT * FROM \x7bnode\x7d" ≠
      some "SELECT * FROM dr_node" := by decide

/-- An engine whose execution always raises the given driver error. -/
def errorEngine (e : String) : Engine := fun _ _ => .error e

/-- An engine whose execution succeeds with the given column description
and zero rows. -/
def emptyResultEngine (cols : List String) : Engine :=
  fun _ _ => .ok { description := some cols, rows := [] }

/-- C4: for every query, parameter tuple and fetch mode, a native error
raised during execution is caught and `execute_query` returns `None`
instead of raising; and a successful `fetch_one` query that matches zero
rows also returns `None`, so a failed query and an absent result are
indistinguishable through the return value alone. -/
theorem execute_query_swallows_errors (cfg : DbConfig) (e q : String)
    (p : QParams) (fo : Bool) (cols : List String) :
    execute_query cfg (errorEngine e) q p fo = Option.none ∧
    execute_query cfg (emptyResultEngine cols) q p true = Option.none := by
  constructor
  · rfl
  · by_cases hc : cols = []
    · simp [execute_query, emptyResultEngine, hc]
    · simp [execute_query, emptyResultEngine, hc]

/-- A configuration that is complete but names the unrecognized driver
`sqlite`. -/
def sqliteCfg : DbConfig :=
  { driver := .str "sqlite", database := .str "d", username := .str "u",
    password := .str "p", host := .str "h", port := .str "3306",
    tablePrefix := "" }

/-- A native connect call that always succeeds. -/
def nativeOk : String → Except String Unit := fun _ => .ok ()

/-- Does the connect result consist of a raised `ConnectionError`? -/
def raisesConnectionError : Except PyErr Unit → Bool
  | .error e => e.isConnectionError
  | .ok _ => false

/-- C5 counterexample: with every required field present but the driver
`sqlite`, `_connect` fails with the re-raised unsupported-driver
`ValueError`, not with the `ConnectionError` type that carries every
other connection failure (so e.g. the `except ConnectionError` reconnect
handler in `execute_query` would not catch it). -/
theorem connect_unsupported_driver_not_connectionError :
    (connect sqliteCfg nativeOk).1 =
      .error (.valueError "Unsupported database driver: sqlite") ∧
    raisesConnectionError (connect sqliteCfg nativeOk).1 = false := ⟨rfl, rfl⟩

/-- C5 (amended): connecting with a complete configuration and an
unrecognized driver fails fatally at construction, with no native
connect call attempted, by re-raising the unsupported-driver
`ValueError` carrying the diagnostic text — not the
`ConnectionError`/`ConnectionFailure` type used for the other
construction-time failures. -/
theorem connect_unrecognized_driver_valueError (cfg : DbConfig)
    (native : String → Except String Unit)
    (hall : (cfg.driver.truthy && cfg.database.truthy && cfg.username.truthy &&
             cfg.password.truthy && cfg.host.truthy && cfg.port.truthy) = true)
    (h1 : cfg.driver ≠ .str "mysql") (h2 : cfg.driver ≠ .str "pgsql")
    (h3 : cfg.driver ≠ .str "mssql") (h4 : cfg.driver ≠ .str "oracle") :
    connect cfg native =
      (.error (.valueError ("Unsupported database driver: " ++ cfg.driver.pyStr)),
       false) := by
  unfold connect
  rw [if_neg (by simp [hall]), if_neg h1, if_neg h2, if_neg h3, if_neg h4]

theorem connect_unrecognized_driver_valueError_witness :
    (sqliteCfg.driver.truthy && sqliteCfg.database.truthy &&
     sqliteCfg.username.truthy && sqliteCfg.password.truthy &&
     sqliteCfg.host.truthy && sqliteCfg.port.truthy) = true ∧
    connect sqliteCfg nativeOk =
      (.error (.valueError ("Unsupported database driver: " ++
        sqliteCfg.driver.pyStr)), false) :=
  ⟨by decide,
   connect_unrecognized_driver_valueError sqliteCfg nativeOk (by decide)
     (by decide) (by decide) (by decide) (by decide)⟩

/-- C10: if any one of the six required configuration fields is absent,
`None`, an empty string, or zero, `_connect` raises the "configuration
incomplete" `ConnectionError` and no native connect call is attempted. -/
theorem connect_incomplete_config (cfg : DbConfig)
    (native : String → Except String Unit)
    (h : cfg.driver.truthy = false ∨ cfg.database.truthy = false ∨
         cfg.username.truthy = false ∨ cfg.password.truthy = false ∨
         cfg.host.truthy = false ∨ cfg.port.truthy = false) :
    connect cfg native =
      (.error (.connectionError
        "Database configuration is incomplete. Cannot connect."), false) := by
  unfold connect
  rw [if_pos (by rcases h with h | h | h | h | h | h <;> simp [h])]

/-- A configuration whose password is present but the empty string. -/
def emptyPasswordCfg : DbConfig :=
  { driver := .str "mysql", database := .str "drupal",
    username := .str "root", password := .str "",
    host := .str "localhost", port := .str "3306", tablePrefix := "" }

theorem connect_incomplete_config_witness :
    (PyVal.str "").truthy = false ∧
    connect emptyPasswordCfg nativeOk =
      (.error (.connectionError
        "Database configuration is incomplete. Cannot connect."), false) :=
  ⟨by decide, connect_incomplete_config emptyPasswordCfg nativeOk (by decide)⟩

/-- The sample MySQL configuration with an empty prefix. -/
def mysqlNoPrefixCfg : DbConfig := { mysqlCfg with tablePrefix := "" }

/-- An engine on which every statement raises (no tables exist). -/
def noTableEngine : Engine := fun _ _ => .error "1146 (42S02): Table does not exist"

/-- C6 (amended): for the mysql driver, if the physical name
`prefix + table_name` contains a character outside letters, digits and
underscore, and is rejected by the validation pattern — which accepts
`ident+` optionally followed by one trailing newline — then
`get_table_schema` returns `None` without executing any query, so apart
from the single-trailing-newline exception the DESCRIBE statement is
only executed on safe identifiers. -/
theorem get_table_schema_rejects_unsafe_name (cfg : DbConfig) (engine : Engine)
    (tableName : String)
    (hdr : cfg.driver = .str "mysql")
    (_hbad : ∃ c ∈ (cfg.tablePrefix ++ tableName).data, isWordChar c = false)
    (hmatch : pyMatchIdentFull (cfg.tablePrefix ++ tableName).data = false) :
    get_table_schema cfg engine tableName = (.ok Option.none, []) := by
  clear _hbad
  have hmatch' : pyMatchIdentFull (cfg.tablePrefix.data ++ tableName.data) = false := by
    simpa using hmatch
  simp [get_table_schema, DbConfig.driverIs, hdr, hmatch']

theorem get_table_schema_rejects_unsafe_name_witness :
    (∃ c ∈ ((mysqlNoPrefixCfg.tablePrefix ++ "users; DROP TABLE x").data),
       isWordChar c = false) ∧
    get_table_schema mysqlNoPrefixCfg noTableEngine "users; DROP TABLE x" =
      (.ok Option.none, []) :=
  ⟨⟨';', by decide, by decide⟩,
   get_table_schema_rejects_unsafe_name mysqlNoPrefixCfg noTableEngine
     "users; DROP TABLE x" rfl ⟨';', by decide, by decide⟩ (by decide)⟩

/-- C6 counterexample: the physical name `users\n` contains a newline,
which is outside the letters/digits/underscore class, yet the `$` anchor
of the validation regex accepts one trailing newline, so
`get_table_schema` interpolates the name into a DESCRIBE statement and
executes it instead of returning `None` without executing anything. -/
theorem get_table_schema_executes_trailing_newline_name :
    isWordChar '\n' = false ∧
    (get_table_schema mysqlNoPrefixCfg noTableEngine "users\n").2 =
      [("DESCRIBE `users\n`", QParams.pos [])] := by decide

/-- A MySQL engine over a database holding exactly the physical table
`dr_test_table`: `SHOW TABLES` lists it, `DESCRIBE` of the existing
physical name succeeds, and every other statement raises. -/
def mysqlDrEngine : Engine := fun q _ =>
  if q = "SHOW TABLES" then
    .ok { description := some ["Tables_in_test_drupal_db"],
          rows := [.dict [("Tables_in_test_drupal_db", .str "dr_test_table")]] }
  else if q = "DESCRIBE `dr_test_table`" then
    .ok { description := some ["Field", "Type"],
          rows := [.dict [("Field", .str "id"), ("Type", .str "int")]] }
  else .error "1146 (42S02): Table does not exist"

/-- C2 (code bug, evaluated at the failing input): with the nonempty
prefix `dr_`, `get_tables` returns the engine-reported physical name
`dr_test_table`, and `get_table_schema` on that returned name prefixes
it a second time — executing `DESCRIBE` of `dr_dr_test_table`, which
fails — so introspection of a listed, existing table returns `None`
(while the unprefixed logical name `test_table` would have
succeeded). -/
theorem get_tables_then_schema_fails_with_nonempty_prefix :
    get_tables mysqlCfg mysqlDrEngine = .ok (some [.str "dr_test_table"]) ∧
    (get_table_schema mysqlCfg mysqlDrEngine "dr_test_table").1 =
      .ok Option.none ∧
    (get_table_schema mysqlCfg mysqlDrEngine "dr_test_table").2 =
      [("DESCRIBE `dr_dr_test_table`", QParams.pos [])] ∧
    (get_table_schema mysqlCfg mysqlDrEngine "test_table").1 =
      .ok (some [(.str "id", .str "int")]) := ⟨rfl, rfl, rfl, rfl⟩

/-- A complete Oracle configuration with no prefix. -/
def oracleCfg : DbConfig :=
  { driver := .str "oracle", database := .str "orcl", username := .str "u",
    password := .str "p", host := .str "h", port := .str "1521",
    tablePrefix := "" }

/-- An Oracle engine with one table `MY_TABLE`: the list-tables query
succeeds, the cursor description carries the engine-reported upper-case
column label `TABLE_NAME`, and the row holds the upper-case name. -/
def oracleEngine : Engine := fun q _ =>
  if q = "SELECT table_name FROM user_tables;" then
    .ok { description := some ["TABLE_NAME"], rows := [.tup [.str "MY_TABLE"]] }
  else .error "ORA-00942: table or view does not exist"

/-- C8 (code bug, evaluated at the failing input): the executor keys
Oracle rows by the cursor description, whose labels the engine reports
upper-case (`TABLE_NAME`), but `get_tables` filters on and reads the
lower-case key `table_name`; every row is therefore dropped and the
result is the empty list rather than the lower-cased table names. -/
theorem get_tables_oracle_returns_empty :
    get_tables oracleCfg oracleEngine = .ok (some []) ∧
    get_tables oracleCfg oracleEngine ≠ .ok (some [PyVal.str "my_table"]) := by
  have heq : get_tables oracleCfg oracleEngine = .ok (some []) := rfl
  constructor
  · exact heq
  · rw [heq]
    simp

/-- C7: the sanitizer is total on rows and preserves the key sequence;
a column holding a bytes value is mapped to its UTF-8 decoding, or to
the fixed sentinel string when the bytes do not decode, so the row is
still returned and no decode failure escapes. -/
theorem sanitize_decodes_or_sentinels (row : DictRow) (i : Nat) (k : String)
    (b : List Nat) (h : row[i]? = some (k, .bytes b)) :
    (sanitize_dict_values_for_json row).map (fun kv => kv.1) =
      row.map (fun kv => kv.1) ∧
    (sanitize_dict_values_for_json row)[i]? = some (k,
      match utf8Decode b with
      | some cps => PyVal.str (String.mk (cps.map Char.ofNat))
      | Option.none => PyVal.str binarySentinel) := by
  constructor
  · simp [sanitize_dict_values_for_json, List.map_map, Function.comp]
  · simp [sanitize_dict_values_for_json, List.getElem?_map, h, sanitizeVal]

theorem sanitize_decodes_or_sentinels_witness :
    ([("data", PyVal.bytes [255])] : DictRow)[0]? =
      some ("data", PyVal.bytes [255]) ∧
    (sanitize_dict_values_for_json [("data", PyVal.bytes [255])])[0]? =
      some ("data", PyVal.str binarySentinel) := by
  constructor
  · decide
  · exact (sanitize_decodes_or_sentinels [("data", PyVal.bytes [255])] 0 "data"
      [255] (by decide)).2.trans (by decide)

/-- Evaluation of `List.mapM` over `Option` when every element succeeds:
the result is `some` of the pointwise extraction. -/
theorem mapM_option_eq_map {α β : Type} (f : α → Option β) (b₀ : β) :
    ∀ (l : List α), (∀ a ∈ l, (f a).isSome = true) →
      optMapM f l = some (l.map (fun a => (f a).getD b₀)) := by
  intro l
  induction l with
  | nil => intro _; rfl
  | cons a t ih =>
    intro h
    have ha := h a (by simp)
    obtain ⟨b, hb⟩ := Option.isSome_iff_exists.mp ha
    have ht := ih (fun x hx => h x (by simp [hx]))
    simp [optMapM, hb, ht]

/-- The per-driver conversion of a conforming raw row into a sanitized
normalized row, as the executor performs it: MySQL dictionary rows are
sanitized directly, psycopg2 and cx_Oracle tuples are zipped against the
described column names, and pyodbc rows are rebuilt from the described
columns by attribute lookup. -/
def normRow (driver : String) (cols : List String) (r : RawRow) : DictRow :=
  if driver = "mysql" then
    sanitize_dict_values_for_json ((r.asDict).getD [])
  else if driver = "mssql" then
    sanitize_dict_values_for_json ((mssqlRowToDict cols r).getD [])
  else sanitize_dict_values_for_json (zipRowToDict cols r)

/-- A raw row in the native fetch format of the given driver: positional
tuples for pgsql and oracle, dictionaries for mysql, attribute rows
carrying every described column for mssql; in every case nonempty, as a
described result set has at least one column. -/
def conforms (driver : String) (cols : List String) : RawRow → Bool
  | .tup vs => (driver = "pgsql" || driver = "oracle") && !(vs = [])
  | .dict d =>
    (driver = "mysql" && !(d = [])) ||
    (driver = "mssql" && !(d = []) && cols.all (fun c => (lookupRow d c).isSome))

theorem mssql_conforms_some {cols : List String} {r : RawRow}
    (hc : conforms "mssql" cols r = true) :
    mssqlRowToDict cols r =
      some (cols.map (fun c =>
        ((lookupRow ((r.asDict).getD []) c).map (fun v => (c, v))).getD
          ("", PyVal.none))) := by
  cases r with
  | tup vs => simp [conforms] at hc
  | dict d =>
    simp only [conforms] at hc
    simp only [Bool.or_eq_true, Bool.and_eq_true] at hc
    rcases hc with ⟨hfalse, _⟩ | ⟨⟨_, _⟩, hall⟩
    · simp at hfalse
    · show optMapM (fun c => (lookupRow d c).map (fun v => (c, v))) cols = _
      rw [mapM_option_eq_map _ ("", PyVal.none) cols]
      · simp [RawRow.asDict]
      · intro c hcm
        have := List.all_eq_true.mp hall c hcm
        simpa using this

/-- C3: through each of the four drivers, a successfully executed
statement that produces rows yields: with `fetch_one=True` exactly one
normalized row — the first fetched row, converted and sanitized — or
`None` when zero rows matched; with `fetch_one=False` the full list of
normalized rows, and the empty list (not `None`) when zero rows
matched. -/
theorem execute_query_fetch_shapes (cfg : DbConfig) (engine : Engine)
    (q : String) (p : QParams) (driver : String) (cols : List String)
    (rows : List RawRow) (fo : Bool)
    (hdr : cfg.driver = .str driver)
    (h4 : driver = "mysql" ∨ driver = "pgsql" ∨ driver = "mssql" ∨
          driver = "oracle")
    (hcols : cols ≠ [])
    (heng : engine q p = .ok { description := some cols, rows := rows })
    (hconf : ∀ r ∈ rows, conforms driver cols r = true) :
    execute_query cfg engine q p fo =
      if fo then
        match rows with
        | [] => Option.none
        | r :: _ => some (.one (normRow driver cols r))
      else some (.list (rows.map (normRow driver cols))) := by
  rcases h4 with rfl | rfl | rfl | rfl
  · -- mysql
    have hd1 : cfg.driverIs "pgsql" = false := by simp [DbConfig.driverIs, hdr]
    have hd2 : cfg.driverIs "mssql" = false := by simp [DbConfig.driverIs, hdr]
    have hd3 : cfg.driverIs "oracle" = false := by simp [DbConfig.driverIs, hdr]
    have hd4 : cfg.driverIs "mysql" = true := by simp [DbConfig.driverIs, hdr]
    cases fo with
    | false =>
      cases rows with
      | nil => simp [execute_query, heng, hcols]
      | cons r0 rest =>
        have hall : ∀ r ∈ r0 :: rest, (RawRow.asDict r).isSome = true := by
          intro r hr
          have hc := hconf r hr
          cases r with
          | tup vs => simp [conforms] at hc
          | dict d => simp [RawRow.asDict]
        have hm := mapM_option_eq_map RawRow.asDict [] (r0 :: rest) hall
        simp [execute_query, heng, hcols, hd1, hd2, hd3, hd4, hm, normRow,
          List.map_map, Function.comp]
    | true =>
      cases rows with
      | nil => simp [execute_query, heng, hcols]
      | cons r0 rest =>
        have hc := hconf r0 (by simp)
        cases r0 with
        | tup vs => simp [conforms] at hc
        | dict d =>
          have hd : ¬ d = [] := by
            simpa [conforms] using hc
          simp [execute_query, heng, hcols, hd1, hd2, hd3, hd4,
            RawRow.truthy, hd, RawRow.asDict, normRow]
  · -- pgsql
    have hd1 : cfg.driverIs "pgsql" = true := by simp [DbConfig.driverIs, hdr]
    cases fo with
    | false =>
      cases rows with
      | nil => simp [execute_query, heng, hcols]
      | cons r0 rest =>
        have hc0 := hconf r0 (by simp)
        cases r0 with
        | dict d => simp [conforms] at hc0
        | tup vs =>
          simp [execute_query, heng, hcols, hd1, RawRow.isTup, normRow]
    | true =>
      cases rows with
      | nil => simp [execute_query, heng, hcols]
      | cons r0 rest =>
        have hc0 := hconf r0 (by simp)
        cases r0 with
        | dict d => simp [conforms] at hc0
        | tup vs =>
          have hvs : ¬ vs = [] := by
            simpa [conforms] using hc0
          simp [execute_query, heng, hcols, hd1, RawRow.truthy, hvs,
            RawRow.isTup, normRow]
  · -- mssql
    have hd1 : cfg.driverIs "pgsql" = false := by simp [DbConfig.driverIs, hdr]
    have hd2 : cfg.driverIs "mssql" = true := by simp [DbConfig.driverIs, hdr]
    cases fo with
    | false =>
      cases rows with
      | nil => simp [execute_query, heng, hcols]
      | cons r0 rest =>
        have hsome : ∀ r ∈ r0 :: rest, (mssqlRowToDict cols r).isSome = true := by
          intro r hr
          simp [mssql_conforms_some (hconf r hr)]
        have hm := mapM_option_eq_map (mssqlRowToDict cols) [] (r0 :: rest) hsome
        simp [execute_query, heng, hcols, hd1, hd2, hm, normRow,
          List.map_map, Function.comp]
    | true =>
      cases rows with
      | nil => simp [execute_query, heng, hcols]
      | cons r0 rest =>
        have hc0 := hconf r0 (by simp)
        have hms := mssql_conforms_some hc0
        cases r0 with
        | tup vs => simp [conforms] at hc0
        | dict d =>
          have hd : ¬ d = [] := by
            simp only [conforms, Bool.or_eq_true, Bool.and_eq_true] at hc0
            rcases hc0 with ⟨hfalse, _⟩ | ⟨⟨_, hne⟩, _⟩
            · simp at hfalse
            · simpa using hne
          simp [execute_query, heng, hcols, hd1, hd2, RawRow.truthy, hd,
            hms, normRow]
  · -- oracle
    have hd1 : cfg.driverIs "pgsql" = false := by simp [DbConfig.driverIs, hdr]
    have hd2 : cfg.driverIs "mssql" = false := by simp [DbConfig.driverIs, hdr]
    have hd3 : cfg.driverIs "oracle" = true := by simp [DbConfig.driverIs, hdr]
    cases fo with
    | false =>
      cases rows with
      | nil => simp [execute_query, heng, hcols]
      | cons r0 rest =>
        have hc0 := hconf r0 (by simp)
        cases r0 with
        | dict d => simp [conforms] at hc0
        | tup vs =>
          simp [execute_query, heng, hcols, hd1, hd2, hd3, RawRow.isTup, normRow]
    | true =>
      cases rows with
      | nil => simp [execute_query, heng, hcols]
      | cons r0 rest =>
        have hc0 := hconf r0 (by simp)
        cases r0 with
        | dict d => simp [conforms] at hc0
        | tup vs =>
          have hvs : ¬ vs = [] := by
            simpa [conforms] using hc0
          simp [execute_query, heng, hcols, hd1, hd2, hd3, RawRow.truthy,
            hvs, RawRow.isTup, normRow]

/-- A single-row, single-column MySQL result set. -/
def c3Engine : Engine := fun _ _ =>
  .ok { description := some ["a"], rows := [.dict [("a", .int 1)]] }

theorem execute_query_fetch_shapes_witness :
    conforms "mysql" ["a"] (.dict [("a", PyVal.int 1)]) = true ∧
    execute_query mysqlCfg c3Engine "SELECT a FROM t" (.pos []) true =
      some (.one [("a", PyVal.int 1)]) := by
  constructor
  · decide
  · exact (execute_query_fetch_shapes mysqlCfg c3Engine "SELECT a FROM t"
      (.pos []) "mysql" ["a"] [.dict [("a", PyVal.int 1)]] true rfl
      (Or.inl rfl) (by decide) rfl (by decide)).trans (by decide)

/-- With `fetch_one=False`, `execute_query` only ever returns `None`, a
sanitized row list, or the raw fetched list — never a single-row shape.
This justifies treating the single-row cases of `QueryResult.iterRows`
as unreachable errors. -/
theorem execute_query_fetchall_shape (cfg : DbConfig) (engine : Engine)
    (q : String) (p : QParams) :
    execute_query cfg engine q p false = Option.none ∨
    (∃ rs, execute_query cfg engine q p false = some (.list rs)) ∨
    (∃ rs, execute_query cfg engine q p false = some (.rawList rs)) := by
  rcases hE : engine q p with e | res
  · exact Or.inl (by simp [execute_query, hE])
  · obtain ⟨desc, rows⟩ := res
    rcases desc with _ | cols
    · exact Or.inl (by simp [execute_query, hE])
    · by_cases hc : cols = []
      · exact Or.inl (by simp [execute_query, hE, hc])
      · cases rows with
        | nil => exact Or.inr (Or.inl ⟨[], by simp [execute_query, hE, hc]⟩)
        | cons r0 rest =>
          by_cases h1 : (cfg.driverIs "pgsql" && r0.isTup) = true
          · exact Or.inr (Or.inl ⟨_, by simp [execute_query, hE, hc, h1]; rfl⟩)
          · by_cases h2 : cfg.driverIs "mssql" = true
            · rcases hm : optMapM (mssqlRowToDict cols) (r0 :: rest) with _ | ds
              · exact Or.inl (by simp [execute_query, hE, hc, h1, h2, hm])
              · exact Or.inr (Or.inl ⟨_, by
                  simp [execute_query, hE, hc, h1, h2, hm]; rfl⟩)
            · by_cases h3 : (cfg.driverIs "oracle" && r0.isTup) = true
              · exact Or.inr (Or.inl ⟨_, by
                  simp [execute_query, hE, hc, h1, h2, h3]; rfl⟩)
              · by_cases h4 : cfg.driverIs "mysql" = true
                · rcases hm : optMapM RawRow.asDict (r0 :: rest) with _ | ds
                  · exact Or.inl (by
                      simp [execute_query, hE, hc, h1, h2, h3, h4, hm])
                  · exact Or.inr (Or.inl ⟨_, by
                      simp [execute_query, hE, hc, h1, h2, h3, h4, hm]; rfl⟩)
                · rcases hm : optMapM RawRow.asDict (r0 :: rest) with _ | ds
                  · exact Or.inr (Or.inr ⟨_, by
                      simp [execute_query, hE, hc, h1, h2, h3, h4, hm]; rfl⟩)
                  · exact Or.inr (Or.inl ⟨_, by
                      simp [execute_query, hE, hc, h1, h2, h3, h4, hm]; rfl⟩)
